import Mathlib

/-!
Verification of the hackaton bio-music repository.

The repository turns physiological recordings (WESAD) into music.  Three
standalone scripts share the same architecture: signals are pre-processed
(normalised), a beat-scheduler loop walks a timeline in heart-rate-sized
steps, a decision-tree mode classifier picks one of four musical modes at
bar boundaries, and instruments are overlaid onto a fixed-length master mix.

This file shallowly embeds the arithmetic and control flow of that code:

* floats are modelled as `ℚ` (exact rational arithmetic);
* numpy arrays are modelled as a length together with an index function
  `ℕ → ℚ`, or as `List ℚ` where the code manipulates whole arrays;
* the pydub `AudioSegment` mix is modelled by its length in milliseconds
  together with the list of overlay events placed into it (pydub's
  `overlay` never extends the base segment);
* library calls whose output the loop merely reads (`neurokit2` cleaning,
  rate estimation, resampling) are inputs of the embedded loop, exactly as
  the loop body reads the pre-computed arrays;
* transcendental primitives of `make_one_song.py` (`np.sin`, `np.exp`,
  `np.pi`, `np.random.uniform`) are abstract parameters of the embedding,
  since the claims about that file concern buffer sizes, not sample values.
-/

namespace Hackaton

/-- `np.clip(x, lo, hi)` on scalars. -/
def npClip (x lo hi : ℚ) : ℚ := min (max x lo) hi

/-- `np.clip` for integer cursor values (`np.clip(idx, 0, len(SCALE)-1)`). -/
def npClipInt (x lo hi : ℤ) : ℤ := min (max x lo) hi

/-- The four musical modes returned by the decision-tree classifiers. -/
inductive Mode where
  | BASELINE
  | STRESS
  | AMUSEMENT
  | MEDITATION
deriving DecidableEq

/-- `determine_musical_mode` of `beat_maker_more_sensors.py` (lines 114-122):
threshold decision tree over heart rate, normalised EDA, respiration rate and
normalised EMG, evaluated meditation first, then stress, then amusement. -/
def determine_musical_mode (hr_bpm eda_norm resp_rate_bpm emg_norm : ℚ) : Mode :=
  if hr_bpm < 75 ∧ resp_rate_bpm < 15 then Mode.MEDITATION
  else if hr_bpm > 85 ∧ eda_norm > 0.4 then Mode.STRESS
  else if hr_bpm > 75 ∧ emg_norm > 0.2 then Mode.AMUSEMENT
  else Mode.BASELINE

/-- `determine_musical_mode_wrist` of `beat_maker_more_sensors.py`
(lines 239-247): the wrist-device decision tree (accelerometer replaces
EMG/respiration), same priority order. -/
def determine_musical_mode_wrist (hr_bpm eda_norm acc_intensity : ℚ) : Mode :=
  if hr_bpm < 75 ∧ acc_intensity < 0.2 then Mode.MEDITATION
  else if hr_bpm > 85 ∧ eda_norm > 0.4 then Mode.STRESS
  else if acc_intensity > 0.3 then Mode.AMUSEMENT
  else Mode.BASELINE

/-- Effective tempo of the chest scheduler of `beat_maker_more_sensors.py`
(line 159): `np.clip(ecg_rate[sec_idx], 60, 140)`. -/
def curBpmChest (raw : ℚ) : ℚ := npClip raw 60 140

/-- Effective tempo of the scheduler of `beat_maker_ecg_emg.py` (line 88):
`np.clip(ecg_rate[sec_idx], 65, 135)`. -/
def curBpmEcgEmg (raw : ℚ) : ℚ := npClip raw 65 135

/-- `ms_per_beat = 60000 / bpm` (both schedulers). -/
def msPerBeatOf (bpm : ℚ) : ℚ := 60000 / bpm

/-- Python `int(q)` for the nonnegative quantities indexed by the schedulers
(truncation; equal to the floor for `q ≥ 0`), landing in `ℕ`. -/
def pyFloorNat (q : ℚ) : ℕ := (Int.floor q).toNat

/-- `np.mean(f[a:b])` over a signal modelled as an index function: the mean of
`f a, f (a+1), …, f (b-1)` (`0` on an empty slice, which the code never hits). -/
def sliceMean (f : ℕ → ℚ) (a b : ℕ) : ℚ :=
  if b ≤ a then 0
  else (((List.range (b - a)).map (fun k => f (a + k))).sum) / ((b - a : ℕ) : ℚ)

/-- `SCALE_MAJOR` of `beat_maker_more_sensors.py` (line 21). -/
def SCALE_MAJOR : List ℚ :=
  [261.63, 293.66, 329.63, 349.23, 392.00, 440.00, 493.88, 523.25]

/-- `SCALE_MINOR_HARM` of `beat_maker_more_sensors.py` (line 22). -/
def SCALE_MINOR_HARM : List ℚ :=
  [261.63, 293.66, 311.13, 349.23, 392.00, 415.30, 493.88, 523.25]

/-- `SCALE_LYDIAN` of `beat_maker_more_sensors.py` (line 23). -/
def SCALE_LYDIAN : List ℚ :=
  [261.63, 293.66, 329.63, 369.99, 392.00, 440.00, 493.88, 523.25]

/-- `SCALE` of `beat_maker_ecg_emg.py` (line 18), the C-major octave. -/
def SCALE : List ℚ :=
  [261.63, 293.66, 329.63, 349.23, 392.00, 440.00, 493.88, 523.25]

/-- The scale position actually dereferenced by the `more_sensors` schedulers:
`last_melody_idx % 8` (Python `%` on a possibly negative int, always in
`[0,7]`). -/
def melodyScaleIdx (i : ℤ) : ℕ := (i % 8).toNat

/-- Kinds of overlay events the schedulers place into the master mix. -/
inductive EvKind where
  | drone
  | pad
  | piano
  | kick
  | snare
  | hihat
  | guitar
  | perc
deriving DecidableEq, BEq

/-- One `overlay` call into the master mix: what was overlaid, at which
millisecond offset, on which beat of the loop, and the data-driven parameter
fed to the instrument (temperature for the drone, breath swell for the pad,
EDA for the guitar, note frequency for the piano, `0` for the fixed drum
samples). -/
structure Ev where
  kind : EvKind
  pos : ℚ
  beat : ℕ
  param : ℚ
deriving DecidableEq

/-- Per-iteration record of the scheduler loop: the beat counter, the mode
active during that beat, and the melody cursor after the beat. -/
structure StepLog where
  beat : ℕ
  mode : Mode
  melodyIdx : ℤ
deriving DecidableEq

/-- The pre-processed signal arrays read by the chest scheduler loop of
`beat_maker_more_sensors.py` (`ecg_rate`, `emg_norm`, `eda_norm`,
`resp_swell`, `resp_rate_sig`, `temp_norm`), all of one common length, plus
the sampling rate. -/
structure Signals where
  len : ℕ
  rate : ℕ
  ecgRate : ℕ → ℚ
  edaNorm : ℕ → ℚ
  emgNorm : ℕ → ℚ
  respSwell : ℕ → ℚ
  respRateSig : ℕ → ℚ
  tempNorm : ℕ → ℚ

/-- Mutable loop state of `generate_song_structure`
(`beat_maker_more_sensors.py` lines 127-133): the master mix (its fixed
length in ms and the events overlaid so far), the timeline position, the
beat counter, chord index, melody cursor and active mode, plus a log of the
per-beat mode/cursor for the invariant statements. -/
structure GenState where
  t : ℚ
  beat : ℕ
  chordIdx : ℕ
  melodyIdx : ℤ
  mode : Mode
  events : List Ev
  log : List StepLog
  mixLenMs : ℚ
deriving DecidableEq

/-- `sec_idx = min(int((current_time_ms / 1000) * rate), len(ecg_rate) - 1)`
(line 157). -/
def secIdxAt (sig : Signals) (t : ℚ) : ℕ :=
  min (pyFloorNat (t / 1000 * (sig.rate : ℚ))) (sig.len - 1)

/-- `cur_resp_rate` (line 167): mean respiration rate over the last five
seconds once five seconds of signal are available, else the default `15`. -/
def curRespRateAt (sig : Signals) (i : ℕ) : ℚ :=
  if sig.rate * 5 < i then sliceMean sig.respRateSig (i - sig.rate * 5) (i + 1)
  else 15

/-- `cur_temp` (line 165): mean of `temp_norm[sec_idx : min(len, sec_idx+rate)]`. -/
def curTempAt (sig : Signals) (i : ℕ) : ℚ :=
  sliceMean sig.tempNorm i (min sig.len (i + sig.rate))

/-- The mode-specific layer of one chest-scheduler iteration (lines 187-229):
the events it overlays and the updated melody cursor, as a function of the
active mode, the beat counter, the timeline position, the beat duration, the
EMG/EDA snapshot values and the current cursor. -/
def modeEvents (mode : Mode) (beat : ℕ) (t mpb curEmg curEda : ℚ)
    (melodyIdx : ℤ) : List Ev × ℤ :=
  match mode with
  | Mode.MEDITATION =>
      if beat % 2 = 0 ∧ curEmg > 0.1 then
        ([⟨EvKind.piano, t, beat, SCALE_LYDIAN.getD (melodyScaleIdx melodyIdx) 0⟩],
         melodyIdx + 1)
      else ([], melodyIdx)
  | Mode.STRESS =>
      ([⟨EvKind.kick, t, beat, 0⟩, ⟨EvKind.hihat, t, beat, 0⟩,
        ⟨EvKind.hihat, t + mpb / 2, beat, 0⟩] ++
       (if beat % 2 = 1 then [⟨EvKind.snare, t, beat, 0⟩] else []) ++
       (if beat % 4 = 0 then [⟨EvKind.guitar, t, beat, curEda⟩] else []),
       melodyIdx)
  | Mode.AMUSEMENT =>
      ((if beat % 4 = 0 ∨ beat % 4 = 2 then [⟨EvKind.kick, t, beat, 0⟩] else []) ++
       (if beat % 4 = 1 ∨ beat % 4 = 3 then [⟨EvKind.snare, t, beat, 0⟩] else []) ++
       [⟨EvKind.hihat, t + mpb / 2, beat, 0⟩] ++
       (if curEmg > 0.15 then
         [⟨EvKind.piano, t, beat, SCALE_MAJOR.getD (melodyScaleIdx melodyIdx) 0⟩]
        else []),
       if curEmg > 0.15 then (if curEmg > 0.4 then melodyIdx + 1 else melodyIdx - 1)
       else melodyIdx)
  | Mode.BASELINE =>
      ((if beat % 4 = 0 then [⟨EvKind.kick, t, beat, 0⟩] else []) ++
       (if beat % 4 = 2 then [⟨EvKind.snare, t, beat, 0⟩] else []) ++
       [⟨EvKind.hihat, t, beat, 0⟩],
       melodyIdx)

/-- One iteration of the chest scheduler loop of
`generate_song_structure` (`beat_maker_more_sensors.py` lines 155-234):
snapshot the signals at the current position, re-run the classifier on bar
boundaries, overlay the always-on textures and the mode-specific layer, then
advance the timeline by one (clamped) beat. -/
def genStep (sig : Signals) (s : GenState) : GenState :=
  let secIdx := secIdxAt sig s.t
  let curBpm := curBpmChest (sig.ecgRate secIdx)
  let mpb := msPerBeatOf curBpm
  let curEda := sig.edaNorm secIdx
  let curEmg := sig.emgNorm secIdx
  let mode :=
    if s.beat % 4 = 0 then
      determine_musical_mode curBpm curEda (curRespRateAt sig secIdx) curEmg
    else s.mode
  let textures : List Ev :=
    [⟨EvKind.drone, s.t, s.beat, curTempAt sig secIdx⟩,
     ⟨EvKind.pad, s.t, s.beat, sig.respSwell secIdx⟩]
  let layered := modeEvents mode s.beat s.t mpb curEmg curEda s.melodyIdx
  let beat1 := s.beat + 1
  { t := s.t + mpb
    beat := beat1
    chordIdx := if beat1 % 4 = 0 then s.chordIdx + 1 else s.chordIdx
    melodyIdx := layered.2
    mode := mode
    events := s.events ++ textures ++ layered.1
    log := s.log ++ [⟨s.beat, mode, layered.2⟩]
    mixLenMs := s.mixLenMs }

/-- The chest scheduler loop (`while current_time_ms < total_sec*1000 - 2000`),
with explicit fuel; `runGen` with enough fuel reaches the terminal condition
(proved below). -/
def runGen (sig : Signals) (totalSec : ℚ) : ℕ → GenState → GenState
  | 0, s => s
  | n + 1, s =>
      if s.t < totalSec * 1000 - 2000 then runGen sig totalSec n (genStep sig s)
      else s

/-- Initial scheduler state (lines 127-133): silent mix of
`total_sec * 1000` ms, position 0, beat 0, chord 0, cursor 0, BASELINE. -/
def initState (totalSec : ℚ) : GenState :=
  { t := 0, beat := 0, chordIdx := 0, melodyIdx := 0, mode := Mode.BASELINE
    events := [], log := [], mixLenMs := totalSec * 1000 }

/-- The pre-processed wrist signal arrays read by
`generate_wrist_song_structure` (`beat_maker_more_sensors.py` lines 271-296):
the BVP-derived rate array and the EDA/TEMP/ACC arrays resampled to the BVP
rate, each with its own length. -/
structure WSignals where
  bvpLen : ℕ
  bvpRate : ℕ
  bvpRateSig : ℕ → ℚ
  edaLen : ℕ
  edaResampled : ℕ → ℚ
  tempLen : ℕ
  tempResampled : ℕ → ℚ
  accLen : ℕ
  accResampled : ℕ → ℚ

/-- The mode-specific layer of one wrist-scheduler iteration (lines 311-358):
the accelerometer replaces EMG as melody driver, and amusement adds a
movement-percussion overlay at `t + int(ms_per_beat * 0.25)`. -/
def modeEventsW (mode : Mode) (beat : ℕ) (t mpb curAcc curEda : ℚ)
    (melodyIdx : ℤ) : List Ev × ℤ :=
  match mode with
  | Mode.MEDITATION =>
      if beat % 2 = 0 ∧ curAcc > 0.1 then
        ([⟨EvKind.piano, t, beat, SCALE_LYDIAN.getD (melodyScaleIdx melodyIdx) 0⟩],
         melodyIdx + 1)
      else ([], melodyIdx)
  | Mode.STRESS =>
      ([⟨EvKind.kick, t, beat, 0⟩, ⟨EvKind.hihat, t, beat, 0⟩,
        ⟨EvKind.hihat, t + mpb / 2, beat, 0⟩] ++
       (if beat % 2 = 1 then [⟨EvKind.snare, t, beat, 0⟩] else []) ++
       (if beat % 4 = 0 then [⟨EvKind.guitar, t, beat, curEda⟩] else []),
       melodyIdx)
  | Mode.AMUSEMENT =>
      ((if beat % 4 = 0 ∨ beat % 4 = 2 then [⟨EvKind.kick, t, beat, 0⟩] else []) ++
       (if beat % 4 = 1 ∨ beat % 4 = 3 then [⟨EvKind.snare, t, beat, 0⟩] else []) ++
       [⟨EvKind.hihat, t + mpb / 2, beat, 0⟩] ++
       (if curAcc > 0.15 then
         [⟨EvKind.piano, t, beat, SCALE_MAJOR.getD (melodyScaleIdx melodyIdx) 0⟩]
        else []) ++
       (if curAcc > 0.3 then
         [⟨EvKind.perc, t + (pyFloorNat (mpb * 0.25) : ℚ), beat, curAcc⟩]
        else []),
       if curAcc > 0.15 then (if curAcc > 0.4 then melodyIdx + 1 else melodyIdx - 1)
       else melodyIdx)
  | Mode.BASELINE =>
      ((if beat % 4 = 0 then [⟨EvKind.kick, t, beat, 0⟩] else []) ++
       (if beat % 4 = 2 then [⟨EvKind.snare, t, beat, 0⟩] else []) ++
       [⟨EvKind.hihat, t, beat, 0⟩],
       melodyIdx)

/-- `sec_idx` of the wrist loop (line 288). -/
def secIdxAtW (sig : WSignals) (t : ℚ) : ℕ :=
  min (pyFloorNat (t / 1000 * (sig.bvpRate : ℚ))) (sig.bvpLen - 1)

/-- One iteration of the wrist scheduler loop of
`generate_wrist_song_structure` (`beat_maker_more_sensors.py`
lines 286-363). -/
def genStepW (sig : WSignals) (s : GenState) : GenState :=
  let secIdx := secIdxAtW sig s.t
  let curBpm := curBpmChest (sig.bvpRateSig secIdx)
  let mpb := msPerBeatOf curBpm
  let curEda := sig.edaResampled (min secIdx (sig.edaLen - 1))
  let curTemp := sig.tempResampled (min secIdx (sig.tempLen - 1))
  let curAcc := sig.accResampled (min secIdx (sig.accLen - 1))
  let mode :=
    if s.beat % 4 = 0 then determine_musical_mode_wrist curBpm curEda curAcc
    else s.mode
  let textures : List Ev := [⟨EvKind.drone, s.t, s.beat, curTemp⟩]
  let layered := modeEventsW mode s.beat s.t mpb curAcc curEda s.melodyIdx
  let beat1 := s.beat + 1
  { t := s.t + mpb
    beat := beat1
    chordIdx := if beat1 % 4 = 0 then s.chordIdx + 1 else s.chordIdx
    melodyIdx := layered.2
    mode := mode
    events := s.events ++ textures ++ layered.1
    log := s.log ++ [⟨s.beat, mode, layered.2⟩]
    mixLenMs := s.mixLenMs }

/-- The signal arrays read by the scheduler loop of `beat_maker_ecg_emg.py`
(`ecg_rate` and the normalised EMG). -/
structure ESignals where
  len : ℕ
  rate : ℕ
  ecgRate : ℕ → ℚ
  emgNorm : ℕ → ℚ

/-- Mutable loop state of `generate_song_structure` in
`beat_maker_ecg_emg.py` (lines 68-79), with a log of the melody cursor after
each beat. -/
structure EState where
  t : ℚ
  beat : ℕ
  chordIdx : ℕ
  melodyIdx : ℤ
  events : List Ev
  log : List ℤ
deriving DecidableEq

/-- One iteration of the scheduler loop of `beat_maker_ecg_emg.py`
(lines 85-138): tempo clamped to `[65,135]`, chorus above 90 bpm, fixed
kick/snare pattern, pad chord each bar, and the clamped stepwise melody
driven by EMG (lines 119-134). -/
def genStepE (sig : ESignals) (s : EState) : EState :=
  let secIdx := min (pyFloorNat (s.t / 1000 * (sig.rate : ℚ))) (sig.len - 1)
  let bpm := curBpmEcgEmg (sig.ecgRate secIdx)
  let mpb := msPerBeatOf bpm
  let isChorus := bpm > 90
  let rhythm : List Ev :=
    [⟨EvKind.hihat, s.t, s.beat, 0⟩] ++
    (if isChorus then [⟨EvKind.hihat, s.t + mpb / 2, s.beat, 0⟩] else []) ++
    (if s.beat % 4 = 0 then [⟨EvKind.kick, s.t, s.beat, 0⟩] else []) ++
    (if s.beat % 4 = 2 then [⟨EvKind.kick, s.t, s.beat, 0⟩] else []) ++
    (if s.beat % 4 = 1 ∨ s.beat % 4 = 3 then [⟨EvKind.snare, s.t, s.beat, 0⟩] else [])
  let harmony :=
    if s.beat % 4 = 0 then ([(⟨EvKind.pad, s.t, s.beat, 0⟩ : Ev)], s.chordIdx + 1)
    else ([], s.chordIdx)
  let emgVal := sig.emgNorm (pyFloorNat (s.t / 1000 * (sig.rate : ℚ)))
  let melody :=
    if emgVal > 0.2 then
      let step : ℤ := if emgVal > 0.5 then 1 else -1
      let newIdx := npClipInt (s.melodyIdx + step) 0 7
      ([(⟨EvKind.piano, s.t, s.beat, SCALE.getD newIdx.toNat 0⟩ : Ev)], newIdx)
    else ([], s.melodyIdx)
  { t := s.t + mpb
    beat := s.beat + 1
    chordIdx := harmony.2
    melodyIdx := melody.2
    events := s.events ++ rhythm ++ harmony.1 ++ melody.1
    log := s.log ++ [melody.2] }

/-- The scheduler loop of `beat_maker_ecg_emg.py`
(`while current_time_ms < total_sec*1000 - 2000`), with explicit fuel. -/
def runGenE (sig : ESignals) (totalSec : ℚ) : ℕ → EState → EState
  | 0, s => s
  | n + 1, s =>
      if s.t < totalSec * 1000 - 2000 then runGenE sig totalSec n (genStepE sig s)
      else s

/-- Initial state of the `beat_maker_ecg_emg.py` loop (lines 71-74). -/
def initStateE : EState :=
  { t := 0, beat := 0, chordIdx := 0, melodyIdx := 0, events := [], log := [] }

/-- The beat counters of the events of one kind, in emission order. -/
def eventsOfKind (k : EvKind) (evs : List Ev) : List ℕ :=
  evs.filterMap (fun e => if e.kind = k then some e.beat else none)

/-- A chest-signal fixture: sixty-second-style segment sampled at the chest
rate 700, every signal constant. -/
def constSignals (bpm eda emg resp respRate temp : ℚ) : Signals :=
  { len := 5600, rate := 700, ecgRate := fun _ => bpm, edaNorm := fun _ => eda
    emgNorm := fun _ => emg, respSwell := fun _ => resp
    respRateSig := fun _ => respRate, tempNorm := fun _ => temp }

/-- A wrist-signal fixture at the wrist BVP rate 64, every signal constant. -/
def constWSignals (bpm eda temp acc : ℚ) : WSignals :=
  { bvpLen := 512, bvpRate := 64, bvpRateSig := fun _ => bpm
    edaLen := 512, edaResampled := fun _ => eda
    tempLen := 512, tempResampled := fun _ => temp
    accLen := 512, accResampled := fun _ => acc }

/-- `np.min` over a nonempty array modelled as a list (`0` on the empty list,
which numpy rejects). -/
def npMinList : List ℚ → ℚ
  | [] => 0
  | x :: t => t.foldl min x

/-- `np.max` over a nonempty array modelled as a list. -/
def npMaxList : List ℚ → ℚ
  | [] => 0
  | x :: t => t.foldl max x

/-- Denominator of the chest normalizations of `beat_maker_more_sensors.py`
(lines 141, 145, 150) and `beat_maker_ecg_emg.py` (line 83):
`signal.max() - signal.min()`, with no epsilon. -/
def chestNormDenom (xs : List ℚ) : ℚ := npMaxList xs - npMinList xs

/-- Chest min-max normalization:
`(signal - signal.min()) / (signal.max() - signal.min())`. -/
def normalizeChest (xs : List ℚ) : List ℚ :=
  xs.map (fun v => (v - npMinList xs) / chestNormDenom xs)

/-- Denominator of the wrist normalizations of `beat_maker_more_sensors.py`
(lines 273, 283): `signal.max() - signal.min() + 0.001`. -/
def wristNormDenom (xs : List ℚ) : ℚ := npMaxList xs - npMinList xs + 0.001

/-- Wrist min-max normalization:
`(signal - signal.min()) / (signal.max() - signal.min() + 0.001)`. -/
def normalizeWrist (xs : List ℚ) : List ℚ :=
  xs.map (fun v => (v - npMinList xs) / wristNormDenom xs)

/-- What the per-segment loop of a `main` does with one requested segment:
skip it because its label never occurs, skip it because the window starting
at the chosen index overruns the signal, or process the window
`[start, stop)`. -/
inductive SegOutcome where
  | skippedNoData
  | skippedShort
  | processed (start stop : ℕ)
deriving DecidableEq

/-- `np.where(labels == label_id)[0]`: the ascending indices at which the
label occurs. -/
def labelIndices (labels : List ℕ) (labelId : ℕ) : List ℕ :=
  (List.range labels.length).filter (fun i => labels.getD i 0 == labelId)

/-- The per-segment guards of `main` in `beat_maker_ecg_emg.py`
(lines 171-187): first occurrence of the label as window start; skip when the
label is absent or when `start + num_samples_needed` overruns the signal,
otherwise process `[start, start + need)`. -/
def processSegmentE (labels : List ℕ) (sigLen need labelId : ℕ) : SegOutcome :=
  match labelIndices labels labelId with
  | [] => SegOutcome.skippedNoData
  | s :: _ =>
      if sigLen < s + need then SegOutcome.skippedShort
      else SegOutcome.processed s (s + need)

/-- The per-segment guards of `main` in `beat_maker_more_sensors.py`
(lines 417-435): the middle occurrence of the label is the window start;
skip when the label is absent or the chest window overruns, otherwise
process. -/
def processSegmentMS (labels : List ℕ) (chestLen need labelId : ℕ) : SegOutcome :=
  let indices := labelIndices labels labelId
  if indices.isEmpty then SegOutcome.skippedNoData
  else
    let s := indices.getD (indices.length / 2) 0
    if chestLen < s + need then SegOutcome.skippedShort
    else SegOutcome.processed s (s + need)

/-- The `for label_name, label_id in segments.items()` loop of
`beat_maker_ecg_emg.py`: each requested segment yields its own outcome. -/
def processAllE (labels : List ℕ) (sigLen need : ℕ)
    (segs : List (String × ℕ)) : List (String × SegOutcome) :=
  segs.map (fun p => (p.1, processSegmentE labels sigLen need p.2))

end Hackaton

namespace Hackaton.OneSong

/-- `SAMPLE_RATE` of `make_one_song.py` (line 9). -/
def SAMPLE_RATE : ℕ := 44100

/-- `SCALE` of `make_one_song.py` (line 14). -/
def SCALE : List ℚ :=
  [130.81, 155.56, 174.61, 196.00, 233.08, 261.63, 311.13, 349.23, 392.00, 466.16]

/-- The transcendental and random primitives `make_one_song.py` takes from
numpy (`np.sin`, `np.exp`, `np.pi`, `np.random.uniform`), abstract in this
embedding: every claim about this file holds for any choice of them. -/
structure Synth where
  sin : ℚ → ℚ
  exp : ℚ → ℚ
  uniformNoise : ℕ → ℚ
  pi : ℚ

/-- `np.sign`. -/
def npSign (q : ℚ) : ℚ := if 0 < q then 1 else if q < 0 then -1 else 0

/-- Python float `%` (sign of the divisor; used with positive divisors). -/
def pyMod (a b : ℚ) : ℚ := a - b * (Int.floor (a / b) : ℚ)

/-- Python list indexing with a possibly negative index (negative counts from
the end). -/
def pyGet (l : List ℚ) (i : ℤ) : ℚ :=
  if 0 ≤ i then l.getD i.toNat 0 else l.getD (l.length - (-i).toNat) 0

/-- `t = np.linspace(0, 1.0, SAMPLE_RATE, False)` (endpoint excluded):
sample `i` is `i / SAMPLE_RATE`. -/
def linT (i : ℕ) : ℚ := (i : ℚ) / (SAMPLE_RATE : ℚ)

/-- `freq = np.linspace(150, 50, SAMPLE_RATE)` of `play_kick` (endpoint
included): sample `i` is `150 + (50 - 150) * i / (SAMPLE_RATE - 1)`. -/
def kickFreq (i : ℕ) : ℚ := 150 + (50 - 150) * (i : ℚ) / ((SAMPLE_RATE : ℚ) - 1)

/-- `get_note` (lines 17-19): `SCALE[int(value * (len(SCALE) - 1))]`. -/
def get_note (v : ℚ) : ℚ := pyGet SCALE (Int.floor (v * ((SCALE.length : ℤ) - 1)))

/-- `play_kick` (lines 23-28): silent buffer below volume `0.1`, else a
swept, exponentially decaying sine — one second of samples either way. -/
def play_kick (S : Synth) (vol : ℚ) : List ℚ :=
  if vol < 0.1 then List.replicate SAMPLE_RATE 0
  else (List.range SAMPLE_RATE).map (fun i =>
    S.sin (2 * S.pi * kickFreq i * linT i) * (S.exp (-5 * linT i) * vol))

/-- `play_bass` (lines 31-34): square wave at 65.41 Hz. -/
def play_bass (S : Synth) (vol : ℚ) : List ℚ :=
  (List.range SAMPLE_RATE).map (fun i =>
    npSign (S.sin (2 * S.pi * 65.41 * linT i)) * 0.3 * vol)

/-- `play_melody` (lines 37-42): vibrato sine at the scale note selected by
the input value. -/
def play_melody (S : Synth) (val vol : ℚ) : List ℚ :=
  (List.range SAMPLE_RATE).map (fun i =>
    S.sin (2 * S.pi * get_note val * (linT i + S.sin (2 * S.pi * 6 * linT i) * 0.01))
      * 0.4 * vol)

/-- `play_hats` (lines 45-52): enveloped noise, busier envelope above stress
volume `0.6`. -/
def play_hats (S : Synth) (stressVol : ℚ) : List ℚ :=
  (List.range SAMPLE_RATE).map (fun i =>
    let env :=
      if stressVol > 0.6 then
        |S.sin (2 * S.pi * 8 * linT i)| * S.exp (pyMod (-5 * linT i) 0.125)
      else
        |S.sin (2 * S.pi * 4 * linT i)| * S.exp (pyMod (-5 * linT i) 0.25)
    S.uniformNoise i * env * stressVol * 0.5)

/-- `play_pad` (lines 55-60): root, third and fifth sines summed. -/
def play_pad (S : Synth) (vol : ℚ) : List ℚ :=
  (List.range SAMPLE_RATE).map (fun i =>
    (S.sin (2 * S.pi * 130.81 * linT i) + S.sin (2 * S.pi * 155.56 * linT i) +
     S.sin (2 * S.pi * 196.00 * linT i)) * 0.2 * vol)

/-- The five per-second volume values the composer loop reads from one JSON
record (after the `float(sec.get(...) or 0.0)` defaulting, lines 83-87). -/
structure SecondVolumes where
  kick : ℚ
  bass : ℚ
  melody : ℚ
  hats : ℚ
  pads : ℚ

/-- `np.ndarray` elementwise `+` on equal-length one-second buffers. -/
def addBuf (xs ys : List ℚ) : List ℚ := List.zipWith (· + ·) xs ys

/-- `mix_chunk = kick + bass + melody + hats + pad` (lines 89-95); the melody
is always rendered at volume `0.6` (line 91). -/
def mixChunk (S : Synth) (sec : SecondVolumes) : List ℚ :=
  addBuf (addBuf (addBuf (addBuf (play_kick S sec.kick) (play_bass S sec.bass))
    (play_melody S sec.melody 0.6)) (play_hats S sec.hats)) (play_pad S sec.pads)

/-- `master_track = np.concatenate(full_song)` over the per-second chunks of
the composer loop (lines 79-99). -/
def composeMaster (S : Synth) (data : List SecondVolumes) : List ℚ :=
  (data.map (mixChunk S)).flatten

/-- `np.max(np.abs(master_track))` (line 100). -/
def peakAbs (xs : List ℚ) : ℚ := xs.foldr (fun x m => max |x| m) 0

/-- The finalize step of `compose` (lines 100-102): scale so the peak is
`0.9` whenever the peak is nonzero. -/
def finalizeMaster (xs : List ℚ) : List ℚ :=
  if 0 < peakAbs xs then xs.map (fun x => x / peakAbs xs * 0.9) else xs

/-- A concrete choice of the abstract numpy primitives, used to instantiate
the general theorems on explicit inputs. -/
def trivialSynth : Synth :=
  { sin := fun _ => 0, exp := fun _ => 0, uniformNoise := fun _ => 0, pi := 0 }

end Hackaton.OneSong

namespace Hackaton

lemma foldl_min_le_foldl_max : ∀ (t : List ℚ) (a b : ℚ), a ≤ b →
    t.foldl min a ≤ t.foldl max b := by
  intro t
  induction t with
  | nil => intro a b h; exact h
  | cons y t ih =>
      intro a b h
      exact ih (min a y) (max b y)
        (le_trans (min_le_left a y) (le_trans h (le_max_left b y)))

lemma npMinList_le_npMaxList (x : ℚ) (t : List ℚ) :
    npMinList (x :: t) ≤ npMaxList (x :: t) :=
  foldl_min_le_foldl_max t x x le_rfl

lemma sliceMean_const (c : ℚ) (a b : ℕ) :
    sliceMean (fun _ => c) a b = if b ≤ a then 0 else c := by
  unfold sliceMean
  split_ifs with h
  · rfl
  · rw [List.map_const', List.sum_replicate, List.length_range, nsmul_eq_mul]
    have hb : (0 : ℚ) < ((b - a : ℕ) : ℚ) := by
      have : 0 < b - a := by omega
      exact_mod_cast this
    field_simp

lemma labelIndices_eq_nil_of_not_mem (labels : List ℕ) (labelId : ℕ)
    (h : labelId ∉ labels) : labelIndices labels labelId = [] := by
  refine List.filter_eq_nil_iff.mpr ?_
  intro i hi
  have hlen : i < labels.length := List.mem_range.mp hi
  have hmem : labels.getD i 0 ∈ labels := by
    rw [List.getD_eq_getElem labels 0 hlen]
    exact List.getElem_mem hlen
  simp only [beq_iff_eq]
  intro hEq
  exact h (hEq ▸ hmem)

namespace OneSong

lemma peakAbs_nonneg (xs : List ℚ) : 0 ≤ peakAbs xs := by
  induction xs with
  | nil => exact le_rfl
  | cons x t ih => exact le_trans ih (le_max_right _ _)

lemma abs_le_peakAbs (xs : List ℚ) (v : ℚ) (hv : v ∈ xs) : |v| ≤ peakAbs xs := by
  induction xs with
  | nil => cases hv
  | cons x t ih =>
      rcases List.mem_cons.mp hv with h | h
      · subst h; exact le_max_left _ _
      · exact le_trans (ih h) (le_max_right _ _)

lemma peakAbs_map_mul (c : ℚ) (hc : 0 ≤ c) (xs : List ℚ) :
    peakAbs (xs.map (fun x => x * c)) = peakAbs xs * c := by
  induction xs with
  | nil => simp [peakAbs]
  | cons x t ih =>
      simp only [List.map_cons, peakAbs, List.foldr_cons] at *
      rw [ih, abs_mul, abs_of_nonneg hc, max_mul_of_nonneg _ _ hc]

end OneSong

/-- Claim C1: `determine_musical_mode` (and its wrist variant) is a pure
function of its numeric inputs that always returns one of the four modes, and
its branches are evaluated meditation first, then stress, then amusement,
else baseline, so on overlapping inputs the earliest-checked mode wins. -/
theorem c1_classifier_priority (hr eda rr emg acc : ℚ) :
    (determine_musical_mode hr eda rr emg = Mode.MEDITATION ∨
     determine_musical_mode hr eda rr emg = Mode.STRESS ∨
     determine_musical_mode hr eda rr emg = Mode.AMUSEMENT ∨
     determine_musical_mode hr eda rr emg = Mode.BASELINE) ∧
    (hr < 75 ∧ rr < 15 → determine_musical_mode hr eda rr emg = Mode.MEDITATION) ∧
    (¬(hr < 75 ∧ rr < 15) → hr > 85 ∧ eda > 0.4 →
      determine_musical_mode hr eda rr emg = Mode.STRESS) ∧
    (¬(hr < 75 ∧ rr < 15) → ¬(hr > 85 ∧ eda > 0.4) → hr > 75 ∧ emg > 0.2 →
      determine_musical_mode hr eda rr emg = Mode.AMUSEMENT) ∧
    (¬(hr < 75 ∧ rr < 15) → ¬(hr > 85 ∧ eda > 0.4) → ¬(hr > 75 ∧ emg > 0.2) →
      determine_musical_mode hr eda rr emg = Mode.BASELINE) ∧
    (determine_musical_mode_wrist hr eda acc = Mode.MEDITATION ∨
     determine_musical_mode_wrist hr eda acc = Mode.STRESS ∨
     determine_musical_mode_wrist hr eda acc = Mode.AMUSEMENT ∨
     determine_musical_mode_wrist hr eda acc = Mode.BASELINE) ∧
    (hr < 75 ∧ acc < 0.2 → determine_musical_mode_wrist hr eda acc = Mode.MEDITATION) ∧
    (¬(hr < 75 ∧ acc < 0.2) → hr > 85 ∧ eda > 0.4 →
      determine_musical_mode_wrist hr eda acc = Mode.STRESS) ∧
    (¬(hr < 75 ∧ acc < 0.2) → ¬(hr > 85 ∧ eda > 0.4) → acc > 0.3 →
      determine_musical_mode_wrist hr eda acc = Mode.AMUSEMENT) ∧
    (¬(hr < 75 ∧ acc < 0.2) → ¬(hr > 85 ∧ eda > 0.4) → ¬(acc > 0.3) →
      determine_musical_mode_wrist hr eda acc = Mode.BASELINE) := by
  unfold determine_musical_mode determine_musical_mode_wrist
  refine ⟨?_, ?_, ?_, ?_, ?_, ?_, ?_, ?_, ?_, ?_⟩ <;>
    · intros
      split_ifs <;> simp_all

/-- Witness for C1: at heart rate 70, EDA 0, respiration rate 14, EMG 0 the
meditation branch fires. -/
theorem c1_classifier_priority_witness :
    determine_musical_mode 70 0 14 0 = Mode.MEDITATION :=
  (c1_classifier_priority 70 0 14 0 0).2.1 (by norm_num)

/-- Claim C2: the effective tempo is the raw reading clamped into the
configured range (`[60,140]` in `beat_maker_more_sensors.py`, `[65,135]` in
`beat_maker_ecg_emg.py`), so for every raw reading — including 0 or
arbitrarily large values — the beat duration `60000 / tempo` is strictly
positive and bounded (finite). -/
theorem c2_tempo_clamped (raw : ℚ) :
    (60 ≤ curBpmChest raw ∧ curBpmChest raw ≤ 140 ∧
      0 < msPerBeatOf (curBpmChest raw) ∧
      60000 / 140 ≤ msPerBeatOf (curBpmChest raw) ∧
      msPerBeatOf (curBpmChest raw) ≤ 1000) ∧
    (65 ≤ curBpmEcgEmg raw ∧ curBpmEcgEmg raw ≤ 135 ∧
      0 < msPerBeatOf (curBpmEcgEmg raw) ∧
      60000 / 135 ≤ msPerBeatOf (curBpmEcgEmg raw) ∧
      msPerBeatOf (curBpmEcgEmg raw) ≤ 60000 / 65) := by
  unfold curBpmChest curBpmEcgEmg msPerBeatOf npClip
  have h1 : (60 : ℚ) ≤ min (max raw 60) 140 :=
    le_min (le_max_right raw 60) (by norm_num)
  have h2 : min (max raw 60) 140 ≤ 140 := min_le_right _ _
  have h3 : (65 : ℚ) ≤ min (max raw 65) 135 :=
    le_min (le_max_right raw 65) (by norm_num)
  have h4 : min (max raw 65) 135 ≤ 135 := min_le_right _ _
  have p1 : (0 : ℚ) < min (max raw 60) 140 := by linarith
  have p2 : (0 : ℚ) < min (max raw 65) 135 := by linarith
  refine ⟨⟨h1, h2, ?_, ?_, ?_⟩, ⟨h3, h4, ?_, ?_, ?_⟩⟩
  · positivity
  · apply div_le_div_of_nonneg_left (by norm_num) p1 h2
  · rw [div_le_iff₀ p1]; linarith
  · positivity
  · apply div_le_div_of_nonneg_left (by norm_num) p2 h4
  · rw [div_le_iff₀ p2]; linarith

/-- Claim C5: in both `more_sensors` scheduler loops, the classifier is
re-run, and the active mode possibly updated, only on steps whose beat
counter is a multiple of 4; on every other step the active mode is exactly
the previous step's mode. -/
theorem c5_mode_changes_only_at_bars (sig : Signals) (wsig : WSignals)
    (s : GenState) :
    (s.beat % 4 ≠ 0 →
      (genStep sig s).mode = s.mode ∧ (genStepW wsig s).mode = s.mode) ∧
    (s.beat % 4 = 0 →
      (genStep sig s).mode =
        determine_musical_mode (curBpmChest (sig.ecgRate (secIdxAt sig s.t)))
          (sig.edaNorm (secIdxAt sig s.t)) (curRespRateAt sig (secIdxAt sig s.t))
          (sig.emgNorm (secIdxAt sig s.t)) ∧
      (genStepW wsig s).mode =
        determine_musical_mode_wrist
          (curBpmChest (wsig.bvpRateSig (secIdxAtW wsig s.t)))
          (wsig.edaResampled (min (secIdxAtW wsig s.t) (wsig.edaLen - 1)))
          (wsig.accResampled (min (secIdxAtW wsig s.t) (wsig.accLen - 1)))) := by
  constructor
  · intro h
    constructor <;> simp [genStep, genStepW, h]
  · intro h
    constructor <;> simp [genStep, genStepW, h]

/-- Witness for C5: on beat 1 (not a bar boundary) the step functions keep
the previous mode (here STRESS) unchanged. -/
theorem c5_mode_changes_only_at_bars_witness :
    (genStep (constSignals 70 0 0 0 0 0)
        ⟨0, 1, 0, 0, Mode.STRESS, [], [], 8000⟩).mode = Mode.STRESS ∧
    (genStepW (constWSignals 70 0 0 0)
        ⟨0, 1, 0, 0, Mode.STRESS, [], [], 8000⟩).mode = Mode.STRESS :=
  (c5_mode_changes_only_at_bars (constSignals 70 0 0 0 0 0)
    (constWSignals 70 0 0 0) ⟨0, 1, 0, 0, Mode.STRESS, [], [], 8000⟩).1
    (by decide)

lemma genStepE_melodyIdx_cases (esig : ESignals) (s : EState) :
    (genStepE esig s).melodyIdx = s.melodyIdx ∨
    (genStepE esig s).melodyIdx = npClipInt (s.melodyIdx + 1) 0 7 ∨
    (genStepE esig s).melodyIdx = npClipInt (s.melodyIdx - 1) 0 7 := by
  unfold genStepE
  by_cases h1 : esig.emgNorm (pyFloorNat (s.t / 1000 * (esig.rate : ℚ))) > 0.2
  · by_cases h2 : esig.emgNorm (pyFloorNat (s.t / 1000 * (esig.rate : ℚ))) > 0.5 <;>
      simp [h1, h2, sub_eq_add_neg]
  · simp [h1]

lemma npClipInt_mem (x : ℤ) : 0 ≤ npClipInt x 0 7 ∧ npClipInt x 0 7 ≤ 7 := by
  unfold npClipInt
  omega

lemma genStepE_melody_invariant (esig : ESignals) (s : EState)
    (h0 : 0 ≤ s.melodyIdx) (h7 : s.melodyIdx ≤ 7) :
    (0 ≤ (genStepE esig s).melodyIdx ∧ (genStepE esig s).melodyIdx ≤ 7) ∧
    |(genStepE esig s).melodyIdx - s.melodyIdx| ≤ 1 := by
  rcases genStepE_melodyIdx_cases esig s with h | h | h <;>
    rw [h] <;> (try simp only [npClipInt]) <;> rw [abs_le] <;> omega

lemma runGenE_melody_invariant (esig : ESignals) (totalSec : ℚ) :
    ∀ (n : ℕ) (s : EState), 0 ≤ s.melodyIdx → s.melodyIdx ≤ 7 →
      0 ≤ (runGenE esig totalSec n s).melodyIdx ∧
      (runGenE esig totalSec n s).melodyIdx ≤ 7 := by
  intro n
  induction n with
  | zero => intro s h0 h7; exact ⟨h0, h7⟩
  | succ n ih =>
      intro s h0 h7
      rw [runGenE]
      split
      · obtain ⟨⟨g0, g7⟩, _⟩ := genStepE_melody_invariant esig s h0 h7
        exact ih (genStepE esig s) g0 g7
      · exact ⟨h0, h7⟩

lemma modeEvents_melody_step (m : Mode) (beat : ℕ) (t mpb curEmg curEda : ℚ)
    (idx : ℤ) : |(modeEvents m beat t mpb curEmg curEda idx).2 - idx| ≤ 1 := by
  cases m <;> simp only [modeEvents] <;> (try split_ifs) <;> rw [abs_le] <;> omega

lemma modeEventsW_melody_step (m : Mode) (beat : ℕ) (t mpb curAcc curEda : ℚ)
    (idx : ℤ) : |(modeEventsW m beat t mpb curAcc curEda idx).2 - idx| ≤ 1 := by
  cases m <;> simp only [modeEventsW] <;> (try split_ifs) <;> rw [abs_le] <;> omega

/-- Claim C3 (amended): in the `beat_maker_ecg_emg.py` scheduler the melody
cursor is clamped into `[0, scale_length-1] = [0,7]` and each step changes
it by at most one, throughout any run started inside that range (the initial
cursor is 0).  In the `more_sensors` schedulers, however, the raw cursor
`last_melody_idx` is an unbounded counter (it changes by at most one per
melodic event but is never clamped); the scale index actually dereferenced
is `last_melody_idx % 8`, which stays in `[0,7]` by wrapping, not by
clamping. -/
theorem c3_melody_cursor_amended (esig : ESignals) (totalSec : ℚ) (n : ℕ)
    (s : EState) (m : Mode) (beat : ℕ) (t mpb x y : ℚ) (i : ℤ)
    (h0 : 0 ≤ s.melodyIdx) (h7 : s.melodyIdx ≤ 7) :
    (0 ≤ (genStepE esig s).melodyIdx ∧ (genStepE esig s).melodyIdx ≤ 7 ∧
      |(genStepE esig s).melodyIdx - s.melodyIdx| ≤ 1) ∧
    (0 ≤ (runGenE esig totalSec n s).melodyIdx ∧
      (runGenE esig totalSec n s).melodyIdx ≤ 7) ∧
    melodyScaleIdx i ≤ 7 ∧
    |(modeEvents m beat t mpb x y i).2 - i| ≤ 1 ∧
    |(modeEventsW m beat t mpb x y i).2 - i| ≤ 1 := by
  obtain ⟨⟨g0, g7⟩, gstep⟩ := genStepE_melody_invariant esig s h0 h7
  refine ⟨⟨g0, g7, gstep⟩, runGenE_melody_invariant esig totalSec n s h0 h7,
    ?_, modeEvents_melody_step m beat t mpb x y i,
    modeEventsW_melody_step m beat t mpb x y i⟩
  unfold melodyScaleIdx
  have h8 : (0 : ℤ) < 8 := by norm_num
  have := Int.emod_lt_of_pos i h8
  have := Int.emod_nonneg i (by norm_num : (8 : ℤ) ≠ 0)
  omega

/-- Witness for C3 (amended): one full run of the `ecg_emg` scheduler from
its initial state keeps the cursor inside `[0,7]`. -/
theorem c3_melody_cursor_amended_witness :
    0 ≤ (runGenE ⟨5600, 700, fun _ => 70, fun _ => 1⟩ 8 20 initStateE).melodyIdx ∧
    (runGenE ⟨5600, 700, fun _ => 70, fun _ => 1⟩ 8 20 initStateE).melodyIdx ≤ 7 :=
  (c3_melody_cursor_amended ⟨5600, 700, fun _ => 70, fun _ => 1⟩ 8 20 initStateE
    Mode.BASELINE 0 0 0 0 0 0 (by decide) (by decide)).2.1

lemma mpb_chest_bounds (raw : ℚ) :
    (3000 / 7 : ℚ) ≤ msPerBeatOf (curBpmChest raw) ∧
      msPerBeatOf (curBpmChest raw) ≤ 1000 := by
  unfold msPerBeatOf curBpmChest npClip
  have h1 : (60 : ℚ) ≤ min (max raw 60) 140 :=
    le_min (le_max_right raw 60) (by norm_num)
  have h2 : min (max raw 60) 140 ≤ 140 := min_le_right _ _
  have p1 : (0 : ℚ) < min (max raw 60) 140 := by linarith
  constructor
  · have : (3000 / 7 : ℚ) = 60000 / 140 := by norm_num
    rw [this]
    exact div_le_div_of_nonneg_left (by norm_num) p1 h2
  · rw [div_le_iff₀ p1]; linarith

lemma genStep_t_eq (sig : Signals) (s : GenState) :
    (genStep sig s).t =
      s.t + msPerBeatOf (curBpmChest (sig.ecgRate (secIdxAt sig s.t))) := rfl

lemma modeEvents_pos_cases (m : Mode) (beat : ℕ) (t mpb curEmg curEda : ℚ)
    (idx : ℤ) :
    ∀ e ∈ (modeEvents m beat t mpb curEmg curEda idx).1,
      e.pos = t ∨ e.pos = t + mpb / 2 := by
  cases m <;> simp only [modeEvents] <;> (try split_ifs) <;>
    simp [List.forall_mem_append, List.forall_mem_cons, List.forall_mem_singleton]

lemma genStep_events_cases (sig : Signals) (s : GenState) :
    ∀ e ∈ (genStep sig s).events, e ∈ s.events ∨ e.pos = s.t ∨
      e.pos = s.t + msPerBeatOf (curBpmChest (sig.ecgRate (secIdxAt sig s.t))) / 2 := by
  intro e he
  simp only [genStep, List.append_assoc, List.mem_append] at he
  rcases he with he | he | he
  · exact Or.inl he
  · rcases List.mem_cons.mp he with rfl | he
    · exact Or.inr (Or.inl rfl)
    · rcases List.mem_singleton.mp he with rfl
      exact Or.inr (Or.inl rfl)
  · exact Or.inr (modeEvents_pos_cases _ s.beat s.t _ _ _ s.melodyIdx e he)

lemma runGen_reaches_terminal (sig : Signals) (totalSec : ℚ) (n : ℕ)
    (s : GenState)
    (hn : (⌈totalSec * 1000 - 2000 - s.t⌉).toNat ≤ n) :
    totalSec * 1000 - 2000 ≤ (runGen sig totalSec n s).t ∧
    ((∀ e ∈ s.events, e.pos < totalSec * 1000 - 2000 + 500) →
      ∀ e ∈ (runGen sig totalSec n s).events,
        e.pos < totalSec * 1000 - 2000 + 500) := by
  induction n generalizing s with
  | zero =>
      have hc : (⌈totalSec * 1000 - 2000 - s.t⌉ : ℤ) ≤ 0 := by omega
      have hle : totalSec * 1000 - 2000 - s.t ≤ ((0 : ℤ) : ℚ) := Int.ceil_le.mp hc
      rw [runGen]
      exact ⟨by push_cast at hle; linarith, fun h => h⟩
  | succ n ih =>
      by_cases h : s.t < totalSec * 1000 - 2000
      · rw [runGen, if_pos h]
        have hmpb := mpb_chest_bounds (sig.ecgRate (secIdxAt sig s.t))
        have ht' := genStep_t_eq sig s
        have hd : totalSec * 1000 - 2000 - (genStep sig s).t ≤
            totalSec * 1000 - 2000 - s.t - 1 := by
          rw [ht']
          have h1 : (1 : ℚ) ≤ 3000 / 7 := by norm_num
          linarith [hmpb.1]
        have hc1 : ⌈totalSec * 1000 - 2000 - (genStep sig s).t⌉ ≤
            ⌈totalSec * 1000 - 2000 - s.t⌉ - 1 := by
          calc ⌈totalSec * 1000 - 2000 - (genStep sig s).t⌉
              ≤ ⌈totalSec * 1000 - 2000 - s.t - 1⌉ := Int.ceil_le_ceil hd
            _ = ⌈totalSec * 1000 - 2000 - s.t⌉ - 1 := by
                exact_mod_cast Int.ceil_sub_int (totalSec * 1000 - 2000 - s.t) 1
        have hpos : 0 < ⌈totalSec * 1000 - 2000 - s.t⌉ :=
          Int.ceil_pos.mpr (by linarith)
        have hn2 : (⌈totalSec * 1000 - 2000 - (genStep sig s).t⌉).toNat ≤ n := by
          omega
        obtain ⟨ih1, ih2⟩ := ih (genStep sig s) hn2
        refine ⟨ih1, fun hpre => ih2 ?_⟩
        intro e he
        rcases genStep_events_cases sig s e he with h1 | h1 | h1
        · exact hpre e h1
        · rw [h1]; linarith
        · rw [h1]; linarith [hmpb.2]
      · rw [runGen, if_neg h]
        push_neg at h
        exact ⟨h, fun hp => hp⟩

lemma mpb_ecg_bounds (raw : ℚ) :
    (4000 / 9 : ℚ) ≤ msPerBeatOf (curBpmEcgEmg raw) ∧
      msPerBeatOf (curBpmEcgEmg raw) ≤ 60000 / 65 := by
  unfold msPerBeatOf curBpmEcgEmg npClip
  have h1 : (65 : ℚ) ≤ min (max raw 65) 135 :=
    le_min (le_max_right raw 65) (by norm_num)
  have h2 : min (max raw 65) 135 ≤ 135 := min_le_right _ _
  have p1 : (0 : ℚ) < min (max raw 65) 135 := by linarith
  constructor
  · have : (4000 / 9 : ℚ) = 60000 / 135 := by norm_num
    rw [this]
    exact div_le_div_of_nonneg_left (by norm_num) p1 h2
  · exact div_le_div_of_nonneg_left (by norm_num) (by norm_num) h1

lemma genStepE_t_eq (esig : ESignals) (s : EState) :
    (genStepE esig s).t = s.t + msPerBeatOf (curBpmEcgEmg (esig.ecgRate
      (min (pyFloorNat (s.t / 1000 * (esig.rate : ℚ))) (esig.len - 1)))) := rfl

lemma genStepE_events_cases (esig : ESignals) (s : EState) :
    ∀ e ∈ (genStepE esig s).events, e ∈ s.events ∨ e.pos = s.t ∨
      e.pos = s.t + msPerBeatOf (curBpmEcgEmg (esig.ecgRate
        (min (pyFloorNat (s.t / 1000 * (esig.rate : ℚ))) (esig.len - 1)))) / 2 := by
  simp only [genStepE, List.forall_mem_append]
  refine ⟨⟨⟨fun e he => Or.inl he, ⟨⟨⟨⟨?_, ?_⟩, ?_⟩, ?_⟩, ?_⟩⟩, ?_⟩, ?_⟩ <;>
    (try split_ifs) <;> simp

lemma runGenE_reaches_terminal (esig : ESignals) (totalSec : ℚ) (n : ℕ)
    (s : EState)
    (hn : (⌈totalSec * 1000 - 2000 - s.t⌉).toNat ≤ n) :
    totalSec * 1000 - 2000 ≤ (runGenE esig totalSec n s).t ∧
    ((∀ e ∈ s.events, e.pos < totalSec * 1000 - 2000 + 500) →
      ∀ e ∈ (runGenE esig totalSec n s).events,
        e.pos < totalSec * 1000 - 2000 + 500) := by
  induction n generalizing s with
  | zero =>
      have hc : (⌈totalSec * 1000 - 2000 - s.t⌉ : ℤ) ≤ 0 := by omega
      have hle : totalSec * 1000 - 2000 - s.t ≤ ((0 : ℤ) : ℚ) := Int.ceil_le.mp hc
      rw [runGenE]
      exact ⟨by push_cast at hle; linarith, fun h => h⟩
  | succ n ih =>
      by_cases h : s.t < totalSec * 1000 - 2000
      · rw [runGenE, if_pos h]
        have hmpb := mpb_ecg_bounds (esig.ecgRate
          (min (pyFloorNat (s.t / 1000 * (esig.rate : ℚ))) (esig.len - 1)))
        have ht' := genStepE_t_eq esig s
        have hd : totalSec * 1000 - 2000 - (genStepE esig s).t ≤
            totalSec * 1000 - 2000 - s.t - 1 := by
          rw [ht']
          have h1 : (1 : ℚ) ≤ 4000 / 9 := by norm_num
          linarith [hmpb.1]
        have hc1 : ⌈totalSec * 1000 - 2000 - (genStepE esig s).t⌉ ≤
            ⌈totalSec * 1000 - 2000 - s.t⌉ - 1 := by
          calc ⌈totalSec * 1000 - 2000 - (genStepE esig s).t⌉
              ≤ ⌈totalSec * 1000 - 2000 - s.t - 1⌉ := Int.ceil_le_ceil hd
            _ = ⌈totalSec * 1000 - 2000 - s.t⌉ - 1 := by
                exact_mod_cast Int.ceil_sub_int (totalSec * 1000 - 2000 - s.t) 1
        have hpos : 0 < ⌈totalSec * 1000 - 2000 - s.t⌉ :=
          Int.ceil_pos.mpr (by linarith)
        have hn2 : (⌈totalSec * 1000 - 2000 - (genStepE esig s).t⌉).toNat ≤ n := by
          omega
        obtain ⟨ih1, ih2⟩ := ih (genStepE esig s) hn2
        refine ⟨ih1, fun hpre => ih2 ?_⟩
        intro e he
        rcases genStepE_events_cases esig s e he with h1 | h1 | h1
        · exact hpre e h1
        · rw [h1]; linarith
        · rw [h1]
          have hq : (60000 : ℚ) / 65 ≤ 1000 := by norm_num
          linarith [hmpb.2]
      · rw [runGenE, if_neg h]
        push_neg at h
        exact ⟨h, fun hp => hp⟩

/-- Claim C6 (amended): both scheduler loops — the chest loop of
`beat_maker_more_sensors.py` and the loop of `beat_maker_ecg_emg.py` —
terminate: each iteration advances the timeline by the clamped beat
duration, at least `60000/140` resp. `60000/135` ms (both `> 1`), so
`⌈terminal - start⌉` iterations of fuel always reach the terminal position
`total_sec*1000 - 2000`.  Every event overlaid while the loop runs is either
placed at the step position itself, which is strictly before the terminal
position, or is an off-beat overlay at the step position plus half a beat;
consequently every event of a whole run lies strictly below the terminal
position plus 500 ms (half the maximal beat duration), though off-beat
events may land past the terminal position itself (inside the 2000 ms
safety margin). -/
theorem c6_scheduler_terminates (sig : Signals) (esig : ESignals)
    (totalSec : ℚ) (n nE : ℕ) (s : GenState) (es : EState)
    (hn : (⌈totalSec * 1000 - 2000 - s.t⌉).toNat ≤ n)
    (hnE : (⌈totalSec * 1000 - 2000 - es.t⌉).toNat ≤ nE) :
    totalSec * 1000 - 2000 ≤ (runGen sig totalSec n s).t ∧
    ((∀ e ∈ s.events, e.pos < totalSec * 1000 - 2000 + 500) →
      ∀ e ∈ (runGen sig totalSec n s).events,
        e.pos < totalSec * 1000 - 2000 + 500) ∧
    (s.t < totalSec * 1000 - 2000 →
      ∀ e ∈ (genStep sig s).events, e ∈ s.events ∨
        (e.pos = s.t ∧ e.pos < totalSec * 1000 - 2000) ∨
        e.pos = s.t +
          msPerBeatOf (curBpmChest (sig.ecgRate (secIdxAt sig s.t))) / 2) ∧
    totalSec * 1000 - 2000 ≤ (runGenE esig totalSec nE es).t ∧
    ((∀ e ∈ es.events, e.pos < totalSec * 1000 - 2000 + 500) →
      ∀ e ∈ (runGenE esig totalSec nE es).events,
        e.pos < totalSec * 1000 - 2000 + 500) ∧
    (es.t < totalSec * 1000 - 2000 →
      ∀ e ∈ (genStepE esig es).events, e ∈ es.events ∨
        (e.pos = es.t ∧ e.pos < totalSec * 1000 - 2000) ∨
        e.pos = es.t + msPerBeatOf (curBpmEcgEmg (esig.ecgRate
          (min (pyFloorNat (es.t / 1000 * (esig.rate : ℚ))) (esig.len - 1)))) / 2) := by
  obtain ⟨h1, h2⟩ := runGen_reaches_terminal sig totalSec n s hn
  obtain ⟨h4, h5⟩ := runGenE_reaches_terminal esig totalSec nE es hnE
  refine ⟨h1, h2, ?_, h4, h5, ?_⟩
  · intro hlt e he
    rcases genStep_events_cases sig s e he with h | h | h
    · exact Or.inl h
    · exact Or.inr (Or.inl ⟨h, by rw [h]; exact hlt⟩)
    · exact Or.inr (Or.inr h)
  · intro hlt e he
    rcases genStepE_events_cases esig es e he with h | h | h
    · exact Or.inl h
    · exact Or.inr (Or.inl ⟨h, by rw [h]; exact hlt⟩)
    · exact Or.inr (Or.inr h)

/-- Witness for C6 (amended): constant-70-bpm runs of both loops with 6000
fuel from the initial (empty-mix) states reach the terminal position and
keep every event strictly below `6500` ms; every event of the first chest
step sits at a position of the required shape. -/
theorem c6_scheduler_terminates_witness :
    ((8 : ℚ) * 1000 - 2000 ≤
      (runGen (constSignals 70 0 0 0 0 0) 8 6000 (initState 8)).t) ∧
    (∀ e ∈ (runGen (constSignals 70 0 0 0 0 0) 8 6000 (initState 8)).events,
      e.pos < 8 * 1000 - 2000 + 500) ∧
    ((8 : ℚ) * 1000 - 2000 ≤
      (runGenE ⟨5600, 700, fun _ => 70, fun _ => 0⟩ 8 6000 initStateE).t) ∧
    (∀ e ∈ (runGenE ⟨5600, 700, fun _ => 70, fun _ => 0⟩ 8 6000 initStateE).events,
      e.pos < 8 * 1000 - 2000 + 500) ∧
    (∀ e ∈ (genStep (constSignals 70 0 0 0 0 0) (initState 8)).events,
      e ∈ (initState 8).events ∨
      (e.pos = (initState 8).t ∧ e.pos < 8 * 1000 - 2000) ∨
      e.pos = (initState 8).t + msPerBeatOf (curBpmChest
        ((constSignals 70 0 0 0 0 0).ecgRate
          (secIdxAt (constSignals 70 0 0 0 0 0) (initState 8).t))) / 2) := by
  have h := c6_scheduler_terminates (constSignals 70 0 0 0 0 0)
    ⟨5600, 700, fun _ => 70, fun _ => 0⟩ 8 6000 6000 (initState 8) initStateE
    (by norm_num [initState]) (by norm_num [initStateE])
  exact ⟨h.1, h.2.1 (by simp [initState]), h.2.2.2.1,
    h.2.2.2.2.1 (by simp [initStateE]), h.2.2.1 (by norm_num [initState])⟩

/-- Counterexample to claim C4: the chest normalizations
(`beat_maker_more_sensors.py` lines 141, 145, 150) add no epsilon — on the
constant segment `[2, 2, 2]` their denominator `max - min` is exactly `0`,
so the normalization does divide by zero there. -/
theorem c4_chest_denominator_zero : chestNormDenom [2, 2, 2] = 0 := by
  norm_num [chestNormDenom, npMinList, npMaxList]

/-- Claim C4 (amended): only the wrist normalizations
(`beat_maker_more_sensors.py` lines 273 and 283) add the epsilon `0.001` to
the `max - min` denominator; for every nonempty input segment — including a
constant one — that denominator is at least `0.001`, hence nonzero, so the
wrist normalization never divides by zero.  The chest normalizations divide
by the raw range, which is `0` on a constant segment. -/
theorem c4_wrist_epsilon_guard (xs : List ℚ) (hxs : xs ≠ []) :
    (1 / 1000 : ℚ) ≤ wristNormDenom xs ∧ wristNormDenom xs ≠ 0 ∧
      normalizeWrist xs =
        xs.map (fun v => (v - npMinList xs) / wristNormDenom xs) := by
  obtain ⟨x, t, rfl⟩ := List.exists_cons_of_ne_nil hxs
  have h := npMinList_le_npMaxList x t
  have h1 : (1 / 1000 : ℚ) ≤ wristNormDenom (x :: t) := by
    unfold wristNormDenom
    have : (0.001 : ℚ) = 1 / 1000 := by norm_num
    linarith
  exact ⟨h1, by linarith, rfl⟩

/-- Witness for C4 (amended): the constant one-element segment `[5]`. -/
theorem c4_wrist_epsilon_guard_witness :
    (1 / 1000 : ℚ) ≤ wristNormDenom [5] ∧ wristNormDenom [5] ≠ 0 ∧
      normalizeWrist [5] =
        [5].map (fun v => (v - npMinList [5]) / wristNormDenom [5]) :=
  c4_wrist_epsilon_guard [5] (by simp)

/-- Claim C7: the per-segment loops of both `main`s report each requested
segment with an input error (label absent, or window past the end of the
signal) as skipped, without processing it, and the outcome of every segment
is independent of the other segments — the loop continues and earlier
segments are untouched. -/
theorem c7_bad_segments_skipped (labels : List ℕ) (sigLen need labelId : ℕ)
    (segs segs2 : List (String × ℕ)) :
    (processAllE labels sigLen need segs).length = segs.length ∧
    processAllE labels sigLen need (segs ++ segs2) =
      processAllE labels sigLen need segs ++ processAllE labels sigLen need segs2 ∧
    (labelId ∉ labels →
      processSegmentE labels sigLen need labelId = SegOutcome.skippedNoData ∧
      processSegmentMS labels sigLen need labelId = SegOutcome.skippedNoData) ∧
    (∀ s rest, labelIndices labels labelId = s :: rest →
      (sigLen < s + need →
        processSegmentE labels sigLen need labelId = SegOutcome.skippedShort) ∧
      (¬ sigLen < s + need →
        processSegmentE labels sigLen need labelId = SegOutcome.processed s (s + need))) ∧
    (∀ l, labelIndices labels labelId = l → l ≠ [] →
      (sigLen < l.getD (l.length / 2) 0 + need →
        processSegmentMS labels sigLen need labelId = SegOutcome.skippedShort) ∧
      (¬ sigLen < l.getD (l.length / 2) 0 + need →
        processSegmentMS labels sigLen need labelId =
          SegOutcome.processed (l.getD (l.length / 2) 0)
            (l.getD (l.length / 2) 0 + need))) := by
  refine ⟨by simp [processAllE], by simp [processAllE], ?_, ?_, ?_⟩
  · intro h
    have hnil := labelIndices_eq_nil_of_not_mem labels labelId h
    constructor
    · unfold processSegmentE
      rw [hnil]
    · unfold processSegmentMS
      rw [hnil]
      simp
  · intro s rest h
    constructor
    · intro hshort
      unfold processSegmentE
      rw [h]
      simp [hshort]
    · intro hok
      unfold processSegmentE
      rw [h]
      simp [hok]
  · intro l h hne
    constructor
    · intro hshort
      unfold processSegmentMS
      rw [h, if_neg (by simp [List.isEmpty_iff, hne]), if_pos hshort]
    · intro hok
      unfold processSegmentMS
      rw [h, if_neg (by simp [List.isEmpty_iff, hne]), if_neg hok]

/-- Witness for C7: label `2` never occurs in `[1, 1]`, so both mains skip
that segment with a no-data outcome; the one-segment request list yields one
outcome. -/
theorem c7_bad_segments_skipped_witness :
    (processAllE [1, 1] 2 5 [("stress", 2)]).length = [("stress", 2)].length ∧
    processSegmentE [1, 1] 2 5 2 = SegOutcome.skippedNoData ∧
    processSegmentMS [1, 1] 2 5 2 = SegOutcome.skippedNoData := by
  have h := c7_bad_segments_skipped [1, 1] 2 5 2 [("stress", 2)] []
  exact ⟨h.1, h.2.2.1 (by decide)⟩

/-- Claim C8: whenever the mixed master track has a nonzero peak, the
finalize step of `compose` (`make_one_song.py` lines 100-102) rescales every
sample by `0.9 / peak`, making the peak absolute amplitude exactly `0.9`;
hence every sample of the subsequent 16-bit conversion `sample * 32767` has
magnitude strictly below `32768` and cannot overflow `int16`. -/
theorem c8_finalize_peak (xs : List ℚ) (hpos : 0 < OneSong.peakAbs xs) :
    OneSong.peakAbs (OneSong.finalizeMaster xs) = 0.9 ∧
    ∀ v ∈ OneSong.finalizeMaster xs, |v * 32767| < 32768 := by
  have hne : OneSong.peakAbs xs ≠ 0 := ne_of_gt hpos
  have hfun : (fun x => x / OneSong.peakAbs xs * (0.9 : ℚ)) =
      fun x => x * (0.9 / OneSong.peakAbs xs) := by
    funext x
    field_simp
  have hc : (0 : ℚ) ≤ 0.9 / OneSong.peakAbs xs := by positivity
  have hfin : OneSong.finalizeMaster xs =
      xs.map (fun x => x * (0.9 / OneSong.peakAbs xs)) := by
    unfold OneSong.finalizeMaster
    rw [if_pos hpos, hfun]
  constructor
  · rw [hfin, OneSong.peakAbs_map_mul _ hc]
    field_simp
  · intro v hv
    rw [hfin] at hv
    obtain ⟨u, hu, rfl⟩ := List.mem_map.mp hv
    have h1 : |u| ≤ OneSong.peakAbs xs := OneSong.abs_le_peakAbs xs u hu
    have h2 : |u * (0.9 / OneSong.peakAbs xs)| ≤ 0.9 := by
      rw [abs_mul, abs_of_nonneg hc]
      calc |u| * (0.9 / OneSong.peakAbs xs)
          ≤ OneSong.peakAbs xs * (0.9 / OneSong.peakAbs xs) := by
            apply mul_le_mul_of_nonneg_right h1 hc
        _ = 0.9 := by field_simp
    rw [abs_mul]
    have : |(32767 : ℚ)| = 32767 := by norm_num
    rw [this]
    nlinarith [abs_nonneg (u * (0.9 / OneSong.peakAbs xs))]

/-- Witness for C8: the one-sample track `[2]` has peak `2 > 0`. -/
theorem c8_finalize_peak_witness :
    OneSong.peakAbs (OneSong.finalizeMaster [2]) = 0.9 ∧
    ∀ v ∈ OneSong.finalizeMaster [2], |v * 32767| < 32768 :=
  c8_finalize_peak [2] (by norm_num [OneSong.peakAbs])

namespace OneSong

lemma play_kick_length (S : Synth) (v : ℚ) :
    (play_kick S v).length = SAMPLE_RATE := by
  unfold play_kick
  split <;> simp

lemma play_bass_length (S : Synth) (v : ℚ) :
    (play_bass S v).length = SAMPLE_RATE := by
  simp [play_bass]

lemma play_melody_length (S : Synth) (val v : ℚ) :
    (play_melody S val v).length = SAMPLE_RATE := by
  simp [play_melody]

lemma play_hats_length (S : Synth) (sv : ℚ) :
    (play_hats S sv).length = SAMPLE_RATE := by
  simp [play_hats]

lemma play_pad_length (S : Synth) (v : ℚ) :
    (play_pad S v).length = SAMPLE_RATE := by
  simp [play_pad]

lemma mixChunk_length (S : Synth) (sec : SecondVolumes) :
    (mixChunk S sec).length = SAMPLE_RATE := by
  simp [mixChunk, addBuf, List.length_zipWith, play_kick_length,
    play_bass_length, play_melody_length, play_hats_length, play_pad_length]

lemma flatten_length_of_uniform (L : ℕ) :
    ∀ (xss : List (List ℚ)), (∀ l ∈ xss, l.length = L) →
      xss.flatten.length = xss.length * L := by
  intro xss
  induction xss with
  | nil => simp
  | cons x t ih =>
      intro h
      simp only [List.flatten_cons, List.length_append, List.length_cons]
      rw [ih (fun l hl => h l (List.mem_cons_of_mem x hl)),
        h x (List.mem_cons_self x t)]
      ring

lemma flatten_extract_of_uniform (L : ℕ) :
    ∀ (xss : List (List ℚ)), (∀ l ∈ xss, l.length = L) →
      ∀ i, i < xss.length →
        ((xss.flatten.drop (i * L)).take L) = xss.getD i [] := by
  intro xss
  induction xss with
  | nil => intro _ i hi; cases hi
  | cons x t ih =>
      intro h i hi
      cases i with
      | zero =>
          have hx : x.length = L := h x (List.mem_cons_self x t)
          simp only [Nat.zero_mul, List.drop_zero, List.flatten_cons, List.getD]
          rw [← hx, List.take_left]
          simp
      | succ i =>
          have hx : x.length = L := h x (List.mem_cons_self x t)
          have hdrop : (x :: t).flatten.drop ((i + 1) * L) = t.flatten.drop (i * L) := by
            rw [List.flatten_cons, show (i + 1) * L = L + i * L by ring,
              ← List.drop_drop, ← hx, List.drop_left]
          rw [hdrop, ih (fun l hl => h l (List.mem_cons_of_mem x hl)) i
            (Nat.lt_of_succ_lt_succ hi)]
          simp [List.getD]

end OneSong

/-- Claim C10: every instrument of `make_one_song.py` returns exactly
`SAMPLE_RATE` samples (one second) for every volume — including
`play_kick`'s silent branch below `0.1` — hence the concatenated master of
the composer loop over `N` per-second records has exactly
`N * SAMPLE_RATE` samples, and the samples of second `i` are precisely the
`i`-th rendered chunk, with no gap or overlap between chunks. -/
theorem c10_one_second_buffers (S : OneSong.Synth) (v val sv : ℚ)
    (data : List OneSong.SecondVolumes) :
    (OneSong.play_kick S v).length = OneSong.SAMPLE_RATE ∧
    (OneSong.play_bass S v).length = OneSong.SAMPLE_RATE ∧
    (OneSong.play_melody S val v).length = OneSong.SAMPLE_RATE ∧
    (OneSong.play_hats S sv).length = OneSong.SAMPLE_RATE ∧
    (OneSong.play_pad S v).length = OneSong.SAMPLE_RATE ∧
    (OneSong.composeMaster S data).length = data.length * OneSong.SAMPLE_RATE ∧
    (∀ i, i < data.length →
      ((OneSong.composeMaster S data).drop (i * OneSong.SAMPLE_RATE)).take
          OneSong.SAMPLE_RATE =
        (data.map (OneSong.mixChunk S)).getD i []) := by
  have huni : ∀ l ∈ data.map (OneSong.mixChunk S), l.length = OneSong.SAMPLE_RATE := by
    intro l hl
    obtain ⟨sec, _, rfl⟩ := List.mem_map.mp hl
    exact OneSong.mixChunk_length S sec
  refine ⟨OneSong.play_kick_length S v, OneSong.play_bass_length S v,
    OneSong.play_melody_length S val v, OneSong.play_hats_length S sv,
    OneSong.play_pad_length S v, ?_, ?_⟩
  · unfold OneSong.composeMaster
    rw [OneSong.flatten_length_of_uniform _ _ huni, List.length_map]
  · intro i hi
    unfold OneSong.composeMaster
    rw [OneSong.flatten_extract_of_uniform _ _ huni i (by simpa using hi)]

/-- Witness for C10: with the trivial primitives and a single all-zero
record, the first second of the master is exactly the rendered chunk. -/
theorem c10_one_second_buffers_witness :
    ((OneSong.composeMaster OneSong.trivialSynth [⟨0, 0, 0, 0, 0⟩]).drop
        (0 * OneSong.SAMPLE_RATE)).take OneSong.SAMPLE_RATE =
      ([⟨0, 0, 0, 0, 0⟩].map (OneSong.mixChunk OneSong.trivialSynth)).getD 0 [] :=
  (c10_one_second_buffers OneSong.trivialSynth 0 0 0 [⟨0, 0, 0, 0, 0⟩]).2.2.2.2.2.2
    0 (by decide)

end Hackaton

namespace Hackaton

set_option maxRecDepth 10000

set_option maxHeartbeats 4000000

/-- Claim C9: the end-to-end scenario — constant clamped tempo 70 bpm, all
secondary features 0, segment of 8000 ms.  The loop runs beats 0..6, the
active mode is BASELINE on every step (the respiration-rate default 15 keeps
the meditation branch off), kick events are emitted exactly on beats with
residue 0 mod 4 (beats 0 and 4), snare events exactly on residue 2 (beats 2
and 6), no melody event is emitted, and the master mix keeps its full
8000 ms length. -/
theorem c9_constant70_baseline_scenario :
    ((runGen (constSignals 70 0 0 0 0 0) 8 8 (initState 8)).log.map StepLog.mode =
      List.replicate 7 Mode.BASELINE) ∧
    ((runGen (constSignals 70 0 0 0 0 0) 8 8 (initState 8)).log.map StepLog.beat =
      [0, 1, 2, 3, 4, 5, 6]) ∧
    eventsOfKind EvKind.kick
      (runGen (constSignals 70 0 0 0 0 0) 8 8 (initState 8)).events = [0, 4] ∧
    eventsOfKind EvKind.snare
      (runGen (constSignals 70 0 0 0 0 0) 8 8 (initState 8)).events = [2, 6] ∧
    eventsOfKind EvKind.piano
      (runGen (constSignals 70 0 0 0 0 0) 8 8 (initState 8)).events = [] ∧
    (runGen (constSignals 70 0 0 0 0 0) 8 8 (initState 8)).mixLenMs = 8000 := by
  norm_num [runGen, genStep, initState, constSignals, secIdxAt,
    curBpmChest, npClip, msPerBeatOf, pyFloorNat, curRespRateAt, curTempAt,
    sliceMean_const, modeEvents, determine_musical_mode, melodyScaleIdx,
    eventsOfKind, List.filterMap_cons, min_def, max_def, List.replicate]
  all_goals decide

/-- Counterexample to claim C3: in the chest scheduler of
`beat_maker_more_sensors.py`, a run at constant tempo 80 bpm with constant
EMG `0.3` (AMUSEMENT mode, melody gate open, low intensity) decrements the
melody cursor below 0 on its very first beat and ends the 8000 ms segment at
cursor `-8`: the cursor leaves `[0, scale_length-1]` and is wrapped modulo
8 at use, not clamped. -/
theorem c3_cursor_leaves_range :
    ((runGen (constSignals 80 0 0.3 0 0 0) 8 9 (initState 8)).log.map
      StepLog.melodyIdx = [-1, -2, -3, -4, -5, -6, -7, -8]) ∧
    (runGen (constSignals 80 0 0.3 0 0 0) 8 9 (initState 8)).melodyIdx < 0 := by
  norm_num [runGen, genStep, initState, constSignals, secIdxAt,
    curBpmChest, npClip, msPerBeatOf, pyFloorNat, curRespRateAt, curTempAt,
    sliceMean_const, modeEvents, determine_musical_mode, melodyScaleIdx,
    min_def, max_def]

/-- Counterexample to claim C6: in the chest scheduler, a run at constant
tempo 101 bpm with constant EDA `1` (STRESS mode) overlays an off-beat
hi-hat at `t + ms_per_beat/2 = 630000/101 ≈ 6237.6` ms on the last beat —
at or beyond the terminal position `8*1000 - 2000 = 6000` ms, refuting "no
event is scheduled at or beyond that terminal position". -/
theorem c6_event_beyond_terminal :
    ¬ ∀ e ∈ (runGen (constSignals 101 1 0 0 0 0) 8 12 (initState 8)).events,
        e.pos < 8 * 1000 - 2000 := by
  norm_num [runGen, genStep, initState, constSignals, secIdxAt,
    curBpmChest, npClip, msPerBeatOf, pyFloorNat, curRespRateAt, curTempAt,
    sliceMean_const, modeEvents, determine_musical_mode, melodyScaleIdx,
    min_def, max_def]

end Hackaton
